import Mathlib

/-!
Verification of the Intan RHS importer (`src/reader.rs`, `src/types.rs`, `src/lib.rs`).

The Rust code is shallowly embedded:
* `i16`/`i32` values become `Int` (with explicit two's-complement reasoning where
  the code does bitwise work on raw words);
* `f32`/`f64` arithmetic on scale factors, step sizes and sample rates is modelled
  exactly over `ℚ` (all constants involved are decimal literals), while the notch
  filter, whose coefficients involve `exp`/`cos`, is modelled over `ℝ`;
* `ndarray::Array2` matrices become `List (List α)` (outer index = channel,
  inner index = sample), `Array1` becomes `List`;
* fallible functions return `Except IntanError α`;
* byte streams become `List Nat` (each entry a byte value).
-/

deriving instance DecidableEq for Except

/-- Error type of the importer, from `types.rs` (`IntanError`). The `ioError`
and `other` payloads carry no information we need beyond identity of the
message, so `other` keeps its `String` and `ioError` drops the wrapped
`io::Error`. -/
inductive IntanError where
  | unrecognizedFileFormat
  | invalidChannelType
  | fileSizeError
  | stringReadError
  | channelNotFound
  | ioError
  | other (msg : String)
  deriving DecidableEq, Repr

/-- File format version, from `types.rs` (`Version`): two `i32` fields filled
from little-endian `i16` reads. -/
structure Version where
  major : Int
  minor : Int
  deriving DecidableEq, Repr

/-- Channel descriptor, from `types.rs` (`ChannelInfo`). Fields not used by any
modelled operation (port number, impedance floats, the port prefix string) are
omitted. -/
structure ChannelInfo where
  port_name : String
  native_channel_name : String
  custom_channel_name : String
  native_order : Int
  custom_order : Int
  chip_channel : Int
  board_stream : Int
  deriving DecidableEq, Repr

/-- Header, from `types.rs` (`RhsHeader`), restricted to the fields the block
layout, scaling, notch filter and combination logic read. `sample_rate` and
`stim_step_size` are `f32` in the source, modelled over `ℚ`. -/
structure RhsHeader where
  version : Version
  sample_rate : Rat
  num_samples_per_data_block : Nat
  notch_filter_frequency : Option Int
  stim_step_size : Rat
  dc_amplifier_data_saved : Bool
  amplifier_channels : List ChannelInfo
  board_adc_channels : List ChannelInfo
  board_dac_channels : List ChannelInfo
  board_dig_in_channels : List ChannelInfo
  board_dig_out_channels : List ChannelInfo
  deriving DecidableEq, Repr

/-- Decoded data, from `types.rs` (`RhsData`): one optional matrix per signal
kind plus the flat timestamp array. Matrix entry types follow what
`process_data` in `reader.rs` actually stores: scaled amplifier / DC-amplifier
/ ADC / DAC values are floats (`ℚ` here), stim currents and digital values are
`i32` (`Int` here), the three stim status matrices are `bool`. -/
structure RhsData where
  timestamps : List Int
  amplifier_data : Option (List (List Rat))
  dc_amplifier_data : Option (List (List Rat))
  stim_data : Option (List (List Int))
  compliance_limit_data : Option (List (List Bool))
  charge_recovery_data : Option (List (List Bool))
  amp_settle_data : Option (List (List Bool))
  board_adc_data : Option (List (List Rat))
  board_dac_data : Option (List (List Rat))
  board_dig_in_data : Option (List (List Int))
  board_dig_out_data : Option (List (List Int))
  deriving DecidableEq, Repr

/-- Loaded file, from `types.rs` (`RhsFile`) as used by `reader.rs`: the
combination code in `reader.rs` reads and writes a `source_files` field, so the
model includes it. -/
structure RhsFile where
  header : RhsHeader
  data : Option RhsData
  data_present : Bool
  source_files : Option (List String)
  deriving DecidableEq, Repr

/-- Sample count accessor, from `types.rs` (`RhsFile::num_samples`): length of
the timestamp array, `0` when no data is present. -/
def RhsFile.num_samples (f : RhsFile) : Nat :=
  match f.data with
  | some d => d.timestamps.length
  | none => 0

/-- Executable absolute value on `ℚ`, modelling Rust's `f32::abs`. (Mathlib's
`|·|` on `ℚ` goes through lattice structure that the kernel will not reduce;
this definition evaluates.) -/
def rat_abs (q : Rat) : Rat := if q < 0 then -q else q

/-- Truncation of an exact rational to an integer, toward zero: the semantics
of Rust's `as i32` cast applied to a (finite, in-range) float value. -/
def rat_trunc (q : Rat) : Int := Int.tdiv q.num q.den

/-- Reinterpretation of an unsigned 16-bit word as a signed 16-bit integer:
the semantics of `i16::from_le_bytes` in `read_analog_signal_type`
(`reader.rs`), expressed on the word value `u < 65536`. -/
def decode_u16_as_i16 (u : Nat) : Int :=
  if u < 32768 then (u : Int) else (u : Int) - 65536

/-! ## Scaling constants, from the top of `reader.rs` -/

/-- Microvolts per bit (`AMPLIFIER_SCALE_FACTOR` in `reader.rs`). -/
def AMPLIFIER_SCALE_FACTOR : Rat := 0.195

/-- mV per bit (`DC_AMPLIFIER_SCALE_FACTOR` in `reader.rs`). -/
def DC_AMPLIFIER_SCALE_FACTOR : Rat := 19.23

/-- V per bit (`ADC_DAC_SCALE_FACTOR` in `reader.rs`). -/
def ADC_DAC_SCALE_FACTOR : Rat := 0.0003125

/-- Offset for DC-amplifier codes (`DC_AMPLIFIER_OFFSET` in `reader.rs`). -/
def DC_AMPLIFIER_OFFSET : Rat := 512

/-- Offset for amplifier/ADC/DAC codes (`ADC_DAC_OFFSET` in `reader.rs`). -/
def ADC_DAC_OFFSET : Rat := 32768

/-! ## Signal scaling (`scale_amplifier_data` and friends in `reader.rs`) -/

/-- Body of the closure in `scale_amplifier_data` (`reader.rs`): recover the
unsigned 16-bit code from the signed decode, subtract the offset, scale. -/
def scale_amplifier_elem (x : Int) : Rat :=
  let unsigned_val : Rat := if x < 0 then ((x + 65536 : Int) : Rat) else (x : Rat)
  (unsigned_val - ADC_DAC_OFFSET) * AMPLIFIER_SCALE_FACTOR

/-- Model of `scale_amplifier_data` (`reader.rs`): `mapv` of the element scaling over
the whole `[channel, sample]` matrix. -/
def scale_amplifier_data (data_raw : List (List Int)) : List (List Rat) :=
  data_raw.map (List.map scale_amplifier_elem)

/-! ## Stim word extraction (`extract_stim_data` in `reader.rs`) -/

/-- Per-element work of the loop body in `extract_stim_data` (`reader.rs`).
`value` is the raw word decoded as a signed 16-bit integer (stored in `i32`).
`Int.land` agrees with Rust's `&` on `i32` for these operands (the mask is
nonnegative and below 2^32, and two's-complement AND is width-independent in
range); `(value & 256) >> 8` is division by 2^8 since `value & 256 ≥ 0`; the
final `as i32` cast of the `f32` product is truncation toward zero, exact here
because all factors are modelled exactly over `ℚ`.
Result order: (stim current, compliance limit, charge recovery, amp settle). -/
def extract_stim_elem (stim_step_size : Rat) (value : Int) :
    Int × Bool × Bool × Bool :=
  let compliance_limit := Int.land value 32768 != 0
  let charge_recovery := Int.land value 16384 != 0
  let amp_settle := Int.land value 8192 != 0
  let stim_polarity : Int := 1 - 2 * (Int.land value 256 / 256)
  let curr_amp : Int := Int.land value 255
  (rat_trunc (((curr_amp * stim_polarity : Int) : Rat) * stim_step_size),
   compliance_limit, charge_recovery, amp_settle)

/-- Model of `extract_stim_data` (`reader.rs`): the four matrices produced from the raw
stim matrix, elementwise. -/
def extract_stim_data (stim_data_raw : List (List Int)) (stim_step_size : Rat) :
    List (List Int) × List (List Bool) × List (List Bool) × List (List Bool) :=
  (stim_data_raw.map (List.map fun v => (extract_stim_elem stim_step_size v).1),
   stim_data_raw.map (List.map fun v => (extract_stim_elem stim_step_size v).2.1),
   stim_data_raw.map (List.map fun v => (extract_stim_elem stim_step_size v).2.2.1),
   stim_data_raw.map (List.map fun v => (extract_stim_elem stim_step_size v).2.2.2))

/-! ## Digital extraction (`extract_digital_data` in `reader.rs`) -/

/-- Model of `extract_digital_data` (`reader.rs`): for each listed channel, test the bit
at the channel's `native_order` in the shared per-sample word, which the block
reader duplicated across every row of `digital_data_raw`; the source reads row
`0`. Rust's `1 << channel.native_order` (which would panic for a negative
shift) is modelled as `2 ^ native_order.toNat`. -/
def extract_digital_data (digital_data_raw : List (List Int))
    (channels : List ChannelInfo) : List (List Int) :=
  let num_samples := (digital_data_raw.headD []).length
  channels.map fun channel =>
    let mask : Int := 2 ^ channel.native_order.toNat
    (List.range num_samples).map fun j =>
      if Int.land ((digital_data_raw.headD []).getD j 0) mask ≠ 0 then (1 : Int) else 0

/-! ## Block layout (`get_bytes_per_data_block`, `calculate_data_size`,
`check_end_of_file` in `reader.rs`) -/

/-- Model of `bytes_per_signal_type` (`reader.rs`). -/
def bytes_per_signal_type (num_samples num_channels bytes_per_sample : Nat) : Nat :=
  num_samples * num_channels * bytes_per_sample

/-- Model of `get_bytes_per_data_block` (`reader.rs`): per-block byte size from the
header's channel counts (the source wraps this in an always-`Ok` `Result`). -/
def get_bytes_per_data_block (header : RhsHeader) : Nat :=
  let num_samples_per_data_block := 128
  let b := bytes_per_signal_type num_samples_per_data_block 1 4
  let b := b + bytes_per_signal_type num_samples_per_data_block
      header.amplifier_channels.length 2
  let b := b + (if header.dc_amplifier_data_saved then
      bytes_per_signal_type num_samples_per_data_block
        header.amplifier_channels.length 2 else 0)
  let b := b + bytes_per_signal_type num_samples_per_data_block
      header.amplifier_channels.length 2
  let b := b + bytes_per_signal_type num_samples_per_data_block
      header.board_adc_channels.length 2
  let b := b + bytes_per_signal_type num_samples_per_data_block
      header.board_dac_channels.length 2
  let b := b + (if ¬ header.board_dig_in_channels.isEmpty then
      bytes_per_signal_type num_samples_per_data_block 1 2 else 0)
  let b := b + (if ¬ header.board_dig_out_channels.isEmpty then
      bytes_per_signal_type num_samples_per_data_block 1 2 else 0)
  b

/-- Model of `calculate_data_size` (`reader.rs`): `file_size` is the total stream
length, `current_position` the read position just after the header. Returns
(data present, number of blocks, number of samples) or `fileSizeError` when the
remaining bytes are not an exact multiple of the block size. -/
def calculate_data_size (header : RhsHeader) (file_size current_position : Nat) :
    Except IntanError (Bool × Nat × Nat) :=
  let bytes_per_block := get_bytes_per_data_block header
  let bytes_remaining := file_size - current_position
  let data_present := decide (0 < bytes_remaining)
  if bytes_remaining % bytes_per_block ≠ 0 then .error .fileSizeError
  else
    let num_blocks := bytes_remaining / bytes_per_block
    .ok (data_present, num_blocks, num_blocks * header.num_samples_per_data_block)

/-- Model of `check_end_of_file` (`reader.rs`): after the data blocks the stream must be
exactly exhausted. -/
def check_end_of_file (filesize current_position : Nat) : Except IntanError Unit :=
  if filesize - current_position ≠ 0 then .error .fileSizeError else .ok ()

/-- The data-handling section of `load_file` (`reader.rs`): size calculation,
block reading (which only consumes `num_blocks` blocks of bytes and cannot
fail on in-range data), then the end-of-file check — run only when data is
present, exactly as in the source. Returns the sample count when data is
present. -/
def load_data_section (header : RhsHeader) (file_size header_end : Nat) :
    Except IntanError (Option Nat) :=
  match calculate_data_size header file_size header_end with
  | .error e => .error e
  | .ok (data_present, num_blocks, num_samples) =>
    if data_present then
      match check_end_of_file file_size
          (header_end + num_blocks * get_bytes_per_data_block header) with
      | .error e => .error e
      | .ok () => .ok (some num_samples)
    else .ok none

/-! ## Tagged strings (`read_qstring` in `reader.rs`) -/

/-- Little-endian `u32` from the first four bytes of the stream. -/
def read_u32_le : List Nat → Option (Nat × List Nat)
  | b0 :: b1 :: b2 :: b3 :: rest =>
      some (b0 + 256 * b1 + 65536 * b2 + 16777216 * b3, rest)
  | _ => none

/-- Little-endian `u16` from the first two bytes of the stream. -/
def read_u16_le : List Nat → Option (Nat × List Nat)
  | b0 :: b1 :: rest => some (b0 + 256 * b1, rest)
  | _ => none

/-- The `read_u16` loop of `read_qstring`: read `n` little-endian 16-bit code
units, failing (like the `?` on `read_u16`) when the stream runs out. -/
def read_u16_words : Nat → List Nat → Option (List Nat × List Nat)
  | 0, bytes => some ([], bytes)
  | n + 1, bytes =>
    match read_u16_le bytes with
    | none => none
    | some (w, rest) =>
      match read_u16_words n rest with
      | none => none
      | some (ws, rest2) => some (w :: ws, rest2)

/-- Model of `char::from_u32` as used in `read_qstring`: a code point is valid iff it is
at most `0x10FFFF` and not a UTF-16 surrogate (`0xD800`–`0xDFFF`). -/
def char_from_u32 (c : Nat) : Option Nat :=
  if (c < 55296 ∨ 57343 < c) ∧ c < 1114112 then some c else none

/-- The conversion loop of `read_qstring`: every code unit must convert, the
first invalid one aborts. -/
def chars_from_words : List Nat → Option (List Nat)
  | [] => some []
  | c :: cs =>
    match char_from_u32 c with
    | none => none
    | some ch => (chars_from_words cs).map (ch :: ·)

/-- The string-length sanity check of `read_qstring` (`reader.rs`):
`length as u64 > file_length - current_position + 1`, where
`file_length - current_position` is the number of bytes remaining after the
length prefix. -/
def string_length_check_fails (length remaining : Nat) : Bool :=
  decide (remaining + 1 < length)

/-- Model of `read_qstring` (`reader.rs`): 4-byte length prefix (`0xFFFFFFFF` means the
empty string), length sanity check, `length / 2` UTF-16LE code units, each
converted through `char_from_u32`. The produced string is the list of its
scalar values. -/
def read_qstring (stream : List Nat) : Except IntanError (List Nat × List Nat) :=
  match read_u32_le stream with
  | none => .error .ioError
  | some (length, rest) =>
    if length = 4294967295 then .ok ([], rest)
    else if string_length_check_fails length rest.length then .error .stringReadError
    else
      match read_u16_words (length / 2) rest with
      | none => .error .ioError
      | some (data, rest2) =>
        match chars_from_words data with
        | none => .error .stringReadError
        | some result => .ok (result, rest2)

/-! ## Multi-file combination (`verify_header_compatibility`, `combine_data`,
`load_and_combine_files` in `reader.rs`) -/

/-- Model of `verify_header_compatibility` (`reader.rs`): sample rate within `0.01`,
equal amplifier / board-ADC / digital-in channel counts, equal amplifier
native channel names position by position; the first failing check produces
its descriptive error. The formatted numbers of the source's messages are
elided. -/
def verify_header_compatibility (header1 header2 : RhsHeader) :
    Except IntanError Unit :=
  if rat_abs (header1.sample_rate - header2.sample_rate) > 0.01 then
    .error (.other "Sample rates don't match")
  else if header1.amplifier_channels.length ≠ header2.amplifier_channels.length then
    .error (.other "Number of amplifier channels don't match")
  else if header1.board_adc_channels.length ≠ header2.board_adc_channels.length then
    .error (.other "Number of board ADC channels don't match")
  else if header1.board_dig_in_channels.length ≠ header2.board_dig_in_channels.length then
    .error (.other "Number of digital input channels don't match")
  else if (header1.amplifier_channels.zip header2.amplifier_channels).any
      (fun p => p.1.native_channel_name != p.2.native_channel_name) then
    .error (.other "Amplifier channel names don't match")
  else .ok ()

/-- One `if let (Some, Some)` concatenation step of `combine_data`
(`reader.rs`): when both sides are present the matrices are concatenated along
the sample axis (`ndarray::concatenate![Axis(1), ..]`, i.e. rowwise append;
the source panics when the channel counts differ, which the compatibility
check rules out for every kind it covers); otherwise the running combined
matrix is left untouched. -/
def combine_opt {α : Type} (c n : Option (List (List α))) : Option (List (List α)) :=
  match c, n with
  | some a, some b => some (List.zipWith (· ++ ·) a b)
  | _, _ => c

/-- The body of `combine_data` (`reader.rs`) on two present `RhsData` values:
timestamps are concatenated along `Axis(0)`, every matrix kind through
`combine_opt`. -/
def combine_rhs_data (c n : RhsData) : RhsData where
  timestamps := c.timestamps ++ n.timestamps
  amplifier_data := combine_opt c.amplifier_data n.amplifier_data
  dc_amplifier_data := combine_opt c.dc_amplifier_data n.dc_amplifier_data
  stim_data := combine_opt c.stim_data n.stim_data
  compliance_limit_data := combine_opt c.compliance_limit_data n.compliance_limit_data
  charge_recovery_data := combine_opt c.charge_recovery_data n.charge_recovery_data
  amp_settle_data := combine_opt c.amp_settle_data n.amp_settle_data
  board_adc_data := combine_opt c.board_adc_data n.board_adc_data
  board_dac_data := combine_opt c.board_dac_data n.board_dac_data
  board_dig_in_data := combine_opt c.board_dig_in_data n.board_dig_in_data
  board_dig_out_data := combine_opt c.board_dig_out_data n.board_dig_out_data

/-- Model of `combine_data` (`reader.rs`): the data of `next` is folded into `combined`
when both carry data; otherwise `combined` is returned unchanged (the source's
`if let (Some, Some)` around the whole body; its `Result` is always `Ok`). -/
def combine_data (combined next : RhsFile) : RhsFile :=
  match combined.data, next.data with
  | some c, some n => { combined with data := some (combine_rhs_data c n) }
  | _, _ => combined

/-- The per-file loop of `load_and_combine_files` (`reader.rs`): verify header
compatibility, combine the data when both files carry data, append the new
path to the source list. Each input file is paired with its path (the model of
`load_file(file_path)?` succeeding). -/
def combine_files_loop (combined : RhsFile) :
    List (String × RhsFile) → Except IntanError RhsFile
  | [] => .ok combined
  | (p, f) :: rest =>
    match verify_header_compatibility combined.header f.header with
    | .error e => .error e
    | .ok () =>
      let combined :=
        if combined.data_present && f.data_present then combine_data combined f
        else combined
      let combined :=
        { combined with source_files := combined.source_files.map (· ++ [p]) }
      combine_files_loop combined rest

/-- Model of `load_and_combine_files` (`reader.rs`) over already-loaded files: an empty
list is an error; a single file is returned as loaded; otherwise the first
file's `source_files` is initialised to its own path and the remaining files
are folded in. -/
def load_and_combine_files (files : List (String × RhsFile)) :
    Except IntanError RhsFile :=
  match files with
  | [] => .error (.other "No files to load")
  | (p0, f0) :: rest =>
    if rest.isEmpty then .ok f0
    else combine_files_loop { f0 with source_files := some [p0] } rest

/-! ## Notch filter (`apply_notch_filter`, `notch_filter` in `reader.rs`) -/

/-- The second-order IIR recurrence of `notch_filter` (`reader.rs`), over the
filter coefficients: the first two output samples copy the input, output
sample `i ≥ 2` is the source's recurrence (including its division by `a0`). -/
noncomputable def notch_filter_rec (a a0 a1 a2 b0 b1 b2 : ℝ) (signal_in : ℕ → ℝ) : ℕ → ℝ
  | 0 => signal_in 0
  | 1 => signal_in 1
  | n + 2 =>
    (a * b0 * signal_in (n + 2) + a * b1 * signal_in (n + 1) + a * b2 * signal_in n
        - a2 * notch_filter_rec a a0 a1 a2 b0 b1 b2 signal_in n
        - a1 * notch_filter_rec a a0 a1 a2 b0 b1 b2 signal_in (n + 1))
      / a0

/-- Model of `notch_filter` (`reader.rs`): coefficients from the sample rate, notch
frequency and bandwidth, then the recurrence. Signals are modelled as `ℕ → ℝ`
(the source's `Vec<f64>` indexed beyond the first two samples). -/
noncomputable def notch_filter (signal_in : ℕ → ℝ) (f_sample f_notch : ℝ)
    (bandwidth : ℤ) : ℕ → ℝ :=
  let t_step := 1 / f_sample
  let f_c := f_notch * t_step
  let d := Real.exp (-2 * Real.pi * ((bandwidth : ℝ) / 2) * t_step)
  let b := (1 + d * d) * Real.cos (2 * Real.pi * f_c)
  notch_filter_rec ((1 + d * d) / 2) 1 (-b) (d * d) 1
    (-2 * Real.cos (2 * Real.pi * f_c)) 1 signal_in

/-- Model of `apply_notch_filter` (`reader.rs`): no configured notch frequency, or a
format major version of 3 or later, leaves the amplifier matrix untouched;
otherwise every channel is filtered independently with bandwidth 10. -/
noncomputable def apply_notch_filter (header : RhsHeader) (data : List (ℕ → ℝ)) :
    List (ℕ → ℝ) :=
  match header.notch_filter_frequency with
  | none => data
  | some notch_freq =>
    if 3 ≤ header.version.major then data
    else data.map fun channel_data =>
      notch_filter channel_data (header.sample_rate : ℝ) (notch_freq : ℝ) 10

/-! ## Concrete channels and headers used by the witnesses -/

def chA : ChannelInfo := ⟨"Port A", "A-000", "A-000", 0, 0, 0, 0⟩

def chB : ChannelInfo := ⟨"Port A", "A-001", "A-001", 1, 1, 1, 0⟩

def chC : ChannelInfo := ⟨"Port A", "A-002", "A-002", 2, 2, 2, 0⟩

def headerW1 : RhsHeader :=
  ⟨⟨1, 0⟩, 30000, 128, none, 10, true, [chA], [], [chB], [chA], []⟩

def headerW2 : RhsHeader :=
  ⟨⟨2, 1⟩, 30000, 128, some 60, 5, true, [chB], [], [chA], [chC], []⟩

/-! ## C1 — combination of two recordings -/

/-- Specification of one combination step for an optional matrix kind:
presence in the result equals presence in the first (running) recording; when
both sides are present the result is the sample-axis concatenation; when the
second side is absent the first side's matrix is kept unchanged. -/
def combines {α : Type} (c n z : Option (List (List α))) : Prop :=
  z.isSome = c.isSome ∧
  (∀ a b, c = some a → n = some b → z = some (List.zipWith (· ++ ·) a b)) ∧
  (n = none → z = c)

/-- Every row (channel) of an optional matrix has sample length `n`. -/
def mat_sample_len {α : Type} (m : Option (List (List α))) (n : Nat) : Prop :=
  ∀ mm, m = some mm → ∀ row ∈ mm, row.length = n

/-- Every populated matrix of `d`, and its timestamp array, has sample-axis
length `n` (the invariant of §3 of the format description). -/
def data_sample_len (d : RhsData) (n : Nat) : Prop :=
  d.timestamps.length = n ∧
  mat_sample_len d.amplifier_data n ∧ mat_sample_len d.dc_amplifier_data n ∧
  mat_sample_len d.stim_data n ∧ mat_sample_len d.compliance_limit_data n ∧
  mat_sample_len d.charge_recovery_data n ∧ mat_sample_len d.amp_settle_data n ∧
  mat_sample_len d.board_adc_data n ∧ mat_sample_len d.board_dac_data n ∧
  mat_sample_len d.board_dig_in_data n ∧ mat_sample_len d.board_dig_out_data n

/-- Kind present in the first recording is present in the second. -/
def opt_present_in {α : Type} (c n : Option (List (List α))) : Prop :=
  c.isSome = true → n.isSome = true

/-- When both sides are present they have the same channel count. -/
def opt_rows_eq {α : Type} (c n : Option (List (List α))) : Prop :=
  ∀ a b, c = some a → n = some b → a.length = b.length

/-- Every kind populated in `c` is populated in `n`. -/
def presence_covered (c n : RhsData) : Prop :=
  opt_present_in c.amplifier_data n.amplifier_data ∧
  opt_present_in c.dc_amplifier_data n.dc_amplifier_data ∧
  opt_present_in c.stim_data n.stim_data ∧
  opt_present_in c.compliance_limit_data n.compliance_limit_data ∧
  opt_present_in c.charge_recovery_data n.charge_recovery_data ∧
  opt_present_in c.amp_settle_data n.amp_settle_data ∧
  opt_present_in c.board_adc_data n.board_adc_data ∧
  opt_present_in c.board_dac_data n.board_dac_data ∧
  opt_present_in c.board_dig_in_data n.board_dig_in_data ∧
  opt_present_in c.board_dig_out_data n.board_dig_out_data

/-- Matching channel counts for every kind populated on both sides. -/
def rows_match (c n : RhsData) : Prop :=
  opt_rows_eq c.amplifier_data n.amplifier_data ∧
  opt_rows_eq c.dc_amplifier_data n.dc_amplifier_data ∧
  opt_rows_eq c.stim_data n.stim_data ∧
  opt_rows_eq c.compliance_limit_data n.compliance_limit_data ∧
  opt_rows_eq c.charge_recovery_data n.charge_recovery_data ∧
  opt_rows_eq c.amp_settle_data n.amp_settle_data ∧
  opt_rows_eq c.board_adc_data n.board_adc_data ∧
  opt_rows_eq c.board_dac_data n.board_dac_data ∧
  opt_rows_eq c.board_dig_in_data n.board_dig_in_data ∧
  opt_rows_eq c.board_dig_out_data n.board_dig_out_data

def headerDacOnly : RhsHeader :=
  ⟨⟨1, 0⟩, 30000, 128, none, 10, false, [], [], [chA], [], []⟩

def headerNoDac : RhsHeader :=
  ⟨⟨1, 0⟩, 30000, 128, none, 10, false, [], [], [], [], []⟩

def dataDac : RhsData :=
  ⟨[0], none, none, none, none, none, none, none, some [[0]], none, none⟩

def dataNoDac : RhsData :=
  ⟨[7], none, none, none, none, none, none, none, none, none, none⟩

def fileDac : RhsFile := ⟨headerDacOnly, some dataDac, true, none⟩

def fileNoDac : RhsFile := ⟨headerNoDac, some dataNoDac, true, none⟩

/-! ## C6 — two-file combination and compatibility -/

/-- The compatibility condition of the multi-file combiner, as the spec states
it: sample rates within 0.01 Hz, equal amplifier / ADC / digital-in channel
counts, and equal amplifier native channel names in matching order. -/
def headers_compatible (h1 h2 : RhsHeader) : Prop :=
  rat_abs (h1.sample_rate - h2.sample_rate) ≤ 0.01 ∧
  h1.amplifier_channels.length = h2.amplifier_channels.length ∧
  h1.board_adc_channels.length = h2.board_adc_channels.length ∧
  h1.board_dig_in_channels.length = h2.board_dig_in_channels.length ∧
  ∀ p ∈ h1.amplifier_channels.zip h2.amplifier_channels,
    p.1.native_channel_name = p.2.native_channel_name

/-! # Theorems -/
theorem rat_abs_eq_abs (q : Rat) : rat_abs q = |q| := by
  unfold rat_abs
  split
  · rw [abs_of_neg (by assumption)]
  · rw [abs_of_nonneg (by linarith [not_lt.mp (by assumption : ¬ q < 0)])]

/-! ## Shared helper lemmas -/

/-- A data block always contains at least its 128 × 4 timestamp bytes. -/
theorem get_bytes_per_data_block_ge (h : RhsHeader) :
    512 ≤ get_bytes_per_data_block h := by
  simp only [get_bytes_per_data_block, bytes_per_signal_type]
  split_ifs <;> omega

/-- The per-block byte count is strictly positive. -/
theorem get_bytes_per_data_block_pos (h : RhsHeader) :
    0 < get_bytes_per_data_block h :=
  lt_of_lt_of_le (by norm_num) (get_bytes_per_data_block_ge h)

/-! ## C5 — bytes per data block -/

/-- C5: for every parsed header, bytes-per-block equals
128×4 (timestamps) + 128×2×amp + the same amp term again when DC-amplifier
data is saved + 128×2×amp (stim) + 128×2×ADC + 128×2×DAC + 128×2 when the
digital-in channel count is nonzero + 128×2 when the digital-out channel count
is nonzero; the value is strictly positive and depends only on the header's
channel counts and DC-amplifier flag. -/
theorem C5_bytes_per_block (h h2 : RhsHeader) :
    get_bytes_per_data_block h =
      128 * 4 + 128 * 2 * h.amplifier_channels.length
      + (if h.dc_amplifier_data_saved then 128 * 2 * h.amplifier_channels.length else 0)
      + 128 * 2 * h.amplifier_channels.length
      + 128 * 2 * h.board_adc_channels.length
      + 128 * 2 * h.board_dac_channels.length
      + (if h.board_dig_in_channels.length ≠ 0 then 128 * 2 else 0)
      + (if h.board_dig_out_channels.length ≠ 0 then 128 * 2 else 0) ∧
    0 < get_bytes_per_data_block h ∧
    ((h.amplifier_channels.length, h.dc_amplifier_data_saved,
      h.board_adc_channels.length, h.board_dac_channels.length,
      h.board_dig_in_channels.length, h.board_dig_out_channels.length) =
     (h2.amplifier_channels.length, h2.dc_amplifier_data_saved,
      h2.board_adc_channels.length, h2.board_dac_channels.length,
      h2.board_dig_in_channels.length, h2.board_dig_out_channels.length) →
     get_bytes_per_data_block h = get_bytes_per_data_block h2) := by
  have key : ∀ g : RhsHeader, get_bytes_per_data_block g =
      128 * 4 + 128 * 2 * g.amplifier_channels.length
      + (if g.dc_amplifier_data_saved then 128 * 2 * g.amplifier_channels.length else 0)
      + 128 * 2 * g.amplifier_channels.length
      + 128 * 2 * g.board_adc_channels.length
      + 128 * 2 * g.board_dac_channels.length
      + (if g.board_dig_in_channels.length ≠ 0 then 128 * 2 else 0)
      + (if g.board_dig_out_channels.length ≠ 0 then 128 * 2 else 0) := by
    intro g
    simp only [get_bytes_per_data_block, bytes_per_signal_type]
    split_ifs <;> simp_all [List.isEmpty_iff, List.length_eq_zero] <;> ring
  refine ⟨key h, get_bytes_per_data_block_pos h, fun htup => ?_⟩
  simp only [Prod.mk.injEq] at htup
  obtain ⟨e1, e2, e3, e4, e5, e6⟩ := htup
  rw [key h, key h2, e1, e2, e3, e4, e5, e6]

/-- Witness for C5 at two concrete headers with equal channel counts. -/
theorem C5_witness :
    get_bytes_per_data_block headerW1 = get_bytes_per_data_block headerW2 ∧
    0 < get_bytes_per_data_block headerW1 :=
  ⟨(C5_bytes_per_block headerW1 headerW2).2.2 rfl,
   (C5_bytes_per_block headerW1 headerW2).2.1⟩

/-! ## C4 — size check -/

/-- Evaluation of `load_data_section` when the remaining bytes are not a
multiple of the block size: `calculate_data_size` raises `fileSizeError`. -/
theorem load_data_section_err (h : RhsHeader) (fs pos : Nat)
    (hmod : ¬ get_bytes_per_data_block h ∣ (fs - pos)) :
    load_data_section h fs pos = .error .fileSizeError := by
  unfold load_data_section calculate_data_size
  rw [if_pos (fun h0 => hmod (Nat.dvd_of_mod_eq_zero h0))]

/-- Evaluation of `load_data_section` when the remaining bytes are an exact
multiple of the block size: the block reads advance exactly to the end of the
stream and the end-of-file check passes. -/
theorem load_data_section_eq (h : RhsHeader) (fs pos : Nat) (hle : pos ≤ fs)
    (hdvd : get_bytes_per_data_block h ∣ (fs - pos)) :
    load_data_section h fs pos =
      .ok (if 0 < fs - pos then
        some ((fs - pos) / get_bytes_per_data_block h * h.num_samples_per_data_block)
      else none) := by
  unfold load_data_section calculate_data_size check_end_of_file
  rw [if_neg (by simpa using Nat.mod_eq_zero_of_dvd hdvd)]
  have hcancel : (fs - pos) / get_bytes_per_data_block h * get_bytes_per_data_block h
      = fs - pos := Nat.div_mul_cancel hdvd
  by_cases hz : 0 < fs - pos
  · rw [if_pos hz]
    show (if (decide (0 < fs - pos)) = true then _ else _) = _
    rw [if_pos (by simpa using hz)]
    rw [hcancel]
    rw [if_neg (by omega)]
  · rw [if_neg hz]
    show (if (decide (0 < fs - pos)) = true then _ else _) = _
    rw [if_neg (by simpa using hz)]

/-- C4: with the header parsed and the stream positioned at `header_end`,
loading fails with `fileSizeError` iff the remaining bytes are not an exact
multiple of bytes-per-block; in particular a body of length
`bytesPerBlock × B + 1` fails for every `B ≥ 0`, and when the remainder is
zero the blocks consume the stream exactly and the end-of-file check passes. -/
theorem C4_size_error (h : RhsHeader) (file_size header_end : Nat)
    (hle : header_end ≤ file_size) :
    (load_data_section h file_size header_end = .error .fileSizeError ↔
      ¬ get_bytes_per_data_block h ∣ (file_size - header_end)) ∧
    ∀ B : Nat,
      load_data_section h (header_end + (get_bytes_per_data_block h * B + 1)) header_end
        = .error .fileSizeError := by
  have hge := get_bytes_per_data_block_ge h
  constructor
  · by_cases hdvd : get_bytes_per_data_block h ∣ (file_size - header_end)
    · rw [load_data_section_eq h _ _ hle hdvd]
      simp [hdvd]
    · rw [load_data_section_err h _ _ hdvd]
      simp [hdvd]
  · intro B
    apply load_data_section_err
    intro hdvd
    have h1 : header_end + (get_bytes_per_data_block h * B + 1) - header_end
        = get_bytes_per_data_block h * B + 1 := by omega
    rw [h1] at hdvd
    have hmod0 : (get_bytes_per_data_block h * B + 1) % get_bytes_per_data_block h = 0 :=
      Nat.mod_eq_zero_of_dvd hdvd
    rw [Nat.mul_add_mod, Nat.mod_eq_of_lt (by omega)] at hmod0
    exact one_ne_zero hmod0

/-- Witness for C4 at a concrete header and stream geometry. -/
theorem C4_witness :
    load_data_section headerW1 1000 1000 = .error .fileSizeError ↔
      ¬ get_bytes_per_data_block headerW1 ∣ (1000 - 1000) :=
  (C4_size_error headerW1 1000 1000 (by decide)).1

/-! ## C8 — amplifier scaling -/

/-- C8: the scaled amplifier matrix is the raw matrix mapped elementwise — the
value at each `[channel, sample]` position depends only on the raw value at
that position — and the element map recovers the unsigned code as `x + 65536`
for negative `x` and then computes `(code − 32768) × 0.195`. -/
theorem C8_amplifier_scaling (data_raw : List (List Int)) (c s : Nat) (x : Int) :
    ((scale_amplifier_data data_raw)[c]?.bind fun row => row[s]?) =
      ((data_raw[c]?.bind fun row => row[s]?).map scale_amplifier_elem) ∧
    scale_amplifier_elem x =
      ((((if x < 0 then x + 65536 else x) : Int) : Rat) - 32768) * 0.195 := by
  constructor
  · simp only [scale_amplifier_data, List.getElem?_map]
    cases data_raw[c]? with
    | none => rfl
    | some row => simp [List.getElem?_map]
  · unfold scale_amplifier_elem AMPLIFIER_SCALE_FACTOR ADC_DAC_OFFSET
    split <;> rfl

/-! ## C9 — digital extraction -/

/-- C9: digital extraction sets `output[channel, sample]` to `1` exactly when
the bit at the channel's `native_order` is set in the shared per-sample word
(row 0 of the duplicated raw matrix), and `0` otherwise; in particular the
shared word `0b101` yields `1` for native order 0, `1` for native order 2 and
`0` for native order 1. -/
theorem C9_digital_extraction (digital_data_raw : List (List Int))
    (channels : List ChannelInfo) (i j : Nat) (ch : ChannelInfo) (w : Int)
    (hch : channels[i]? = some ch)
    (hw : (digital_data_raw.headD [])[j]? = some w) :
    ((extract_digital_data digital_data_raw channels)[i]?.bind fun row => row[j]?) =
      some (if Int.land w (2 ^ ch.native_order.toNat) ≠ 0 then (1 : Int) else 0) ∧
    extract_digital_data [[0b101]] [chA, chC, chB] = [[1], [1], [0]] := by
  constructor
  · have hj : j < (digital_data_raw.headD []).length := by
      by_contra hge
      rw [List.getElem?_eq_none (by omega)] at hw
      exact Option.noConfusion hw
    have hgetD : (digital_data_raw.headD []).getD j 0 = w := by
      rw [List.getD_eq_getElem?_getD, hw]
      rfl
    simp only [extract_digital_data, List.getElem?_map, hch, Option.map_some',
      Option.some_bind, List.getElem?_range hj, hgetD]
  · decide

/-- Witness for C9 at a concrete word and channel. -/
theorem C9_witness :
    ((extract_digital_data [[5]] [chA])[0]?.bind fun row => row[0]?) =
      some (if Int.land 5 (2 ^ chA.native_order.toNat) ≠ 0 then (1 : Int) else 0) :=
  (C9_digital_extraction [[5]] [chA] 0 0 chA 5 rfl rfl).1

/-! ## C3 — string length sanity check -/

/-- C3 counterexample: the stream declares a string of 5 bytes while only 4
bytes remain, yet `read_qstring` succeeds (the source's check only rejects
`length > remaining + 1`), contradicting the claim that any declared length
exceeding the remaining bytes fails with `StringReadError`. -/
theorem C3_counterexample :
    read_u32_le [5, 0, 0, 0, 65, 0, 66, 0] = some (5, [65, 0, 66, 0]) ∧
    4 < 5 ∧
    read_qstring [5, 0, 0, 0, 65, 0, 66, 0] = .ok ([65, 66], []) := by
  refine ⟨rfl, by omega, ?_⟩
  rfl

/-- C3 (amended): reading fails with `StringReadError` at the length check iff
the declared length exceeds the remaining bytes plus one; in particular a
declared length of at most `remaining + 1` never trips that check. -/
theorem C3_amended_length_check (stream rest : List Nat) (len : Nat)
    (h32 : read_u32_le stream = some (len, rest))
    (hsent : len ≠ 4294967295) :
    (rest.length + 1 < len → read_qstring stream = .error .stringReadError) ∧
    (len ≤ rest.length + 1 → string_length_check_fails len rest.length = false) := by
  constructor
  · intro hbig
    unfold read_qstring
    rw [h32]
    dsimp only
    rw [if_neg hsent]
    rw [if_pos (by simp [string_length_check_fails, hbig])]
  · intro hle
    simp [string_length_check_fails]
    omega

/-- Witness for C3 at a concrete stream whose declared length is too large. -/
theorem C3_witness :
    read_qstring [10, 0, 0, 0] = .error .stringReadError :=
  (C3_amended_length_check [10, 0, 0, 0] [] 10 rfl (by omega)).1 (by decide)

/-! ## C10 — invalid UTF-16 code units -/

/-- Helper: one invalid code unit makes the whole conversion loop fail. -/
theorem chars_from_words_none {data : List Nat} {u : Nat} (hu : u ∈ data)
    (hbad : char_from_u32 u = none) : chars_from_words data = none := by
  induction data with
  | nil => exact absurd hu (List.not_mem_nil u)
  | cons c cs ih =>
    rcases List.mem_cons.mp hu with heq | hmem
    · subst heq
      unfold chars_from_words
      rw [hbad]
    · unfold chars_from_words
      cases hc : char_from_u32 c with
      | none => rfl
      | some ch => rw [ih hmem]; rfl

/-- C10: a tagged string whose declared length fits in the remaining bytes
still fails with `StringReadError` whenever one of its 16-bit code units is a
UTF-16 surrogate (`0xD800`–`0xDFFF`), the values `char::from_u32` rejects in
the `u16` range. -/
theorem C10_surrogate_fails (stream rest rest2 data : List Nat) (len u : Nat)
    (h32 : read_u32_le stream = some (len, rest))
    (hsent : len ≠ 4294967295)
    (hfit : len ≤ rest.length)
    (hread : read_u16_words (len / 2) rest = some (data, rest2))
    (hu : u ∈ data) (hs1 : 55296 ≤ u) (hs2 : u ≤ 57343) :
    read_qstring stream = .error .stringReadError := by
  unfold read_qstring
  rw [h32]
  dsimp only
  rw [if_neg hsent]
  rw [if_neg (by simp [string_length_check_fails]; omega)]
  rw [hread]
  dsimp only
  rw [chars_from_words_none hu (by simp [char_from_u32]; omega)]

/-- Witness for C10: a 2-byte string carrying the single code unit `0xD800`. -/
theorem C10_witness :
    read_qstring [2, 0, 0, 0, 0, 216] = .error .stringReadError :=
  C10_surrogate_fails [2, 0, 0, 0, 0, 216] [0, 216] [] [55296] 2 55296
    rfl (by omega) (by decide) rfl (by decide) (by omega) (by omega)

/-! ## C2 — stim word decoding -/

/-- Helper: Rust's `&` on the `i32` holding a decoded `i16` agrees, for masks
below 2^16, with `Nat.land` on the unsigned 16-bit word. -/
theorem land_decode (u m : Nat) (hu : u < 65536) (hm : m < 65536) :
    Int.land (decode_u16_as_i16 u) (m : Nat) = ((u &&& m : Nat) : Int) := by
  by_cases h : u < 32768
  · unfold decode_u16_as_i16
    rw [if_pos h]
    rfl
  · have hds : decode_u16_as_i16 u = Int.negSucc (65535 - u) := by
      unfold decode_u16_as_i16
      rw [if_neg h, Int.negSucc_eq]
      omega
    rw [hds]
    show ((Nat.ldiff m (65535 - u) : Nat) : Int) = ((u &&& m : Nat) : Int)
    congr 1
    apply Nat.eq_of_testBit_eq
    intro i
    rw [Nat.testBit_ldiff, Nat.testBit_land]
    have h65535 : 65535 - u = 2 ^ 16 - (u + 1) := by
      have hp : (2 : Nat) ^ 16 = 65536 := by norm_num
      omega
    rw [h65535, Nat.testBit_two_pow_sub_succ (by norm_num at hu ⊢; omega)]
    by_cases hi : i < 16
    · rw [decide_eq_true hi]
      cases u.testBit i <;> cases m.testBit i <;> rfl
    · have hmi : m.testBit i = false :=
        Nat.testBit_lt_two_pow
          (lt_of_lt_of_le hm (by
            calc (65536 : Nat) = 2 ^ 16 := by norm_num
            _ ≤ 2 ^ i := Nat.pow_le_pow_right (by norm_num) (by omega)))
      simp [hmi]

/-- C2 (amended): stim extraction decodes compliance-limit from bit 15,
charge-recovery from bit 14, amp-settle from bit 13, polarity from bit 8 and
magnitude from the low 8 bits of the 16-bit word, and stores as stim current
the `i32` truncation (toward zero) of magnitude × sign × step size. -/
theorem C2_amended_stim_decoding (u : Nat) (hu : u < 65536) (step : Rat) :
    extract_stim_elem step (decode_u16_as_i16 u) =
      (rat_trunc (((((u % 256 : Nat) : Int) * (if u.testBit 8 then -1 else 1) : Int) : Rat) * step),
       u.testBit 15, u.testBit 14, u.testBit 13) := by
  have h15 : Int.land (decode_u16_as_i16 u) 32768 = ((u &&& 32768 : Nat) : Int) := by
    exact_mod_cast land_decode u 32768 hu (by norm_num)
  have h14 : Int.land (decode_u16_as_i16 u) 16384 = ((u &&& 16384 : Nat) : Int) := by
    exact_mod_cast land_decode u 16384 hu (by norm_num)
  have h13 : Int.land (decode_u16_as_i16 u) 8192 = ((u &&& 8192 : Nat) : Int) := by
    exact_mod_cast land_decode u 8192 hu (by norm_num)
  have h8 : Int.land (decode_u16_as_i16 u) 256 = ((u &&& 256 : Nat) : Int) := by
    exact_mod_cast land_decode u 256 hu (by norm_num)
  have h255 : Int.land (decode_u16_as_i16 u) 255 = ((u &&& 255 : Nat) : Int) := by
    exact_mod_cast land_decode u 255 hu (by norm_num)
  have e15 : (u &&& 32768) = (u.testBit 15).toNat * 32768 := by
    simpa using Nat.and_two_pow u 15
  have e14 : (u &&& 16384) = (u.testBit 14).toNat * 16384 := by
    simpa using Nat.and_two_pow u 14
  have e13 : (u &&& 8192) = (u.testBit 13).toNat * 8192 := by
    simpa using Nat.and_two_pow u 13
  have e8 : (u &&& 256) = (u.testBit 8).toNat * 256 := by
    simpa using Nat.and_two_pow u 8
  have e255 : (u &&& 255) = u % 256 := by
    simpa using Nat.and_pow_two_sub_one_eq_mod u 8
  have flag : ∀ (b : Bool) (k : Nat), 0 < k → ((((b.toNat * k : Nat) : Int)) != 0) = b := by
    intro b k hk
    cases b
    · simp
    · rw [show (Bool.toNat true) = 1 from rfl, one_mul]
      exact bne_iff_ne.mpr (by exact_mod_cast hk.ne')
  have pol : (1 - 2 * ((((u.testBit 8).toNat * 256 : Nat) : Int) / 256))
      = (if u.testBit 8 then -1 else 1 : Int) := by
    cases u.testBit 8 <;> decide
  unfold extract_stim_elem
  rw [h15, h14, h13, h8, h255, e15, e14, e13, e8, e255,
    flag (u.testBit 15) 32768 (by norm_num), flag (u.testBit 14) 16384 (by norm_num),
    flag (u.testBit 13) 8192 (by norm_num), pol]

/-- C2 counterexample: the claim's word `0b1000001100000101` with step size
`1/2` (exactly representable in `f32`, so the float product `−2.5` is exact):
the code stores the truncated `i32` value `−2`, not `−5 × (1/2) = −5/2`. -/
theorem C2_counterexample :
    (extract_stim_elem (1/2) (decode_u16_as_i16 0b1000001100000101)).1 = -2 ∧
    ((-2 : Rat) ≠ ((5 : Rat) * (-1)) * (1/2)) := by
  constructor
  · have hA : Int.land (decode_u16_as_i16 33541) 255 = ((33541 &&& 255 : Nat) : Int) := by
      exact_mod_cast land_decode 33541 255 (by norm_num) (by norm_num)
    have hB : Int.land (decode_u16_as_i16 33541) 256 = ((33541 &&& 256 : Nat) : Int) := by
      exact_mod_cast land_decode 33541 256 (by norm_num) (by norm_num)
    have hA5 : (33541 &&& 255 : Nat) = 5 := by decide
    have hB256 : (33541 &&& 256 : Nat) = 256 := by decide
    have hpol : (1 - 2 * (((256 : Nat) : Int) / 256) : Int) = -1 := by decide
    unfold extract_stim_elem
    rw [hA, hB, hA5, hB256, hpol]
    dsimp only
    have h5 : ((5 : Nat) : Int) * -1 = -5 := by norm_num
    rw [h5]
    norm_num [rat_trunc]
    all_goals decide
  · norm_num

/-- Witness for C2 at the claim's example word with step size 1. -/
theorem C2_witness :
    extract_stim_elem 1 (decode_u16_as_i16 33541) =
      (rat_trunc (((((33541 % 256 : Nat) : Int) *
          (if Nat.testBit 33541 8 then -1 else 1) : Int) : Rat) * 1),
       Nat.testBit 33541 15, Nat.testBit 33541 14, Nat.testBit 33541 13) :=
  C2_amended_stim_decoding 33541 (by norm_num) 1

theorem combine_opt_spec {α : Type} (c n : Option (List (List α))) :
    combines c n (combine_opt c n) := by
  unfold combines combine_opt
  cases c <;> cases n <;> simp

theorem zipWith_append_len {α : Type} {a b : List (List α)} {n1 n2 : Nat}
    (ha : ∀ row ∈ a, row.length = n1) (hb : ∀ row ∈ b, row.length = n2)
    (hlen : a.length = b.length) :
    ∀ row ∈ List.zipWith (· ++ ·) a b, row.length = n1 + n2 := by
  induction a generalizing b with
  | nil => intro row hr; simp at hr
  | cons x xs ih =>
    cases b with
    | nil => intro row hr; simp at hr
    | cons y ys =>
      intro row hr
      rcases List.mem_cons.mp hr with h | h
      · subst h
        rw [List.length_append, ha x (by simp), hb y (by simp)]
      · exact ih (fun r hra => ha r (by simp [hra]))
          (fun r hrb => hb r (by simp [hrb])) (by simpa using hlen) row h

theorem combine_opt_sample_len {α : Type} (c n : Option (List (List α)))
    (n1 n2 : Nat) (hc : mat_sample_len c n1) (hn : mat_sample_len n n2)
    (hp : opt_present_in c n) (hr : opt_rows_eq c n) :
    mat_sample_len (combine_opt c n) (n1 + n2) := by
  cases c with
  | none => intro mm hmm; simp [combine_opt] at hmm
  | some a =>
    cases n with
    | none => exact absurd (hp (by simp)) (by simp)
    | some b =>
      intro mm hmm
      simp only [combine_opt, Option.some.injEq] at hmm
      subst hmm
      exact zipWith_append_len (hc a rfl) (hn b rfl) (hr a b rfl rfl)

/-- C1 (amended): after `combine_data` on two recordings that both carry data,
each matrix kind is present iff it was present in the FIRST recording; a kind
present in both is the sample-axis concatenation; a kind absent in the second
is kept as the first recording's matrix unchanged; timestamps concatenate; and
the uniform sample-length invariant `N1 + N2` holds provided every kind
populated in the first recording is also populated in the second with matching
channel count. -/
theorem C1_amended_combine (f1 f2 : RhsFile) (cd nd : RhsData)
    (h1 : f1.data = some cd) (h2 : f2.data = some nd) :
    (combine_data f1 f2).data = some (combine_rhs_data cd nd) ∧
    (combine_rhs_data cd nd).timestamps = cd.timestamps ++ nd.timestamps ∧
    combines cd.amplifier_data nd.amplifier_data
      (combine_rhs_data cd nd).amplifier_data ∧
    combines cd.dc_amplifier_data nd.dc_amplifier_data
      (combine_rhs_data cd nd).dc_amplifier_data ∧
    combines cd.stim_data nd.stim_data (combine_rhs_data cd nd).stim_data ∧
    combines cd.compliance_limit_data nd.compliance_limit_data
      (combine_rhs_data cd nd).compliance_limit_data ∧
    combines cd.charge_recovery_data nd.charge_recovery_data
      (combine_rhs_data cd nd).charge_recovery_data ∧
    combines cd.amp_settle_data nd.amp_settle_data
      (combine_rhs_data cd nd).amp_settle_data ∧
    combines cd.board_adc_data nd.board_adc_data
      (combine_rhs_data cd nd).board_adc_data ∧
    combines cd.board_dac_data nd.board_dac_data
      (combine_rhs_data cd nd).board_dac_data ∧
    combines cd.board_dig_in_data nd.board_dig_in_data
      (combine_rhs_data cd nd).board_dig_in_data ∧
    combines cd.board_dig_out_data nd.board_dig_out_data
      (combine_rhs_data cd nd).board_dig_out_data ∧
    (∀ n1 n2, data_sample_len cd n1 → data_sample_len nd n2 →
      presence_covered cd nd → rows_match cd nd →
      data_sample_len (combine_rhs_data cd nd) (n1 + n2)) := by
  refine ⟨?_, rfl, combine_opt_spec _ _, combine_opt_spec _ _, combine_opt_spec _ _,
    combine_opt_spec _ _, combine_opt_spec _ _, combine_opt_spec _ _,
    combine_opt_spec _ _, combine_opt_spec _ _, combine_opt_spec _ _,
    combine_opt_spec _ _, ?_⟩
  · unfold combine_data
    rw [h1, h2]
  · intro n1 n2 hc hn hp hr
    obtain ⟨hct, hc1, hc2, hc3, hc4, hc5, hc6, hc7, hc8, hc9, hc10⟩ := hc
    obtain ⟨hnt, hn1, hn2, hn3, hn4, hn5, hn6, hn7, hn8, hn9, hn10⟩ := hn
    obtain ⟨hp1, hp2, hp3, hp4, hp5, hp6, hp7, hp8, hp9, hp10⟩ := hp
    obtain ⟨hr1, hr2, hr3, hr4, hr5, hr6, hr7, hr8, hr9, hr10⟩ := hr
    exact ⟨by simp [combine_rhs_data, hct, hnt],
      combine_opt_sample_len _ _ _ _ hc1 hn1 hp1 hr1,
      combine_opt_sample_len _ _ _ _ hc2 hn2 hp2 hr2,
      combine_opt_sample_len _ _ _ _ hc3 hn3 hp3 hr3,
      combine_opt_sample_len _ _ _ _ hc4 hn4 hp4 hr4,
      combine_opt_sample_len _ _ _ _ hc5 hn5 hp5 hr5,
      combine_opt_sample_len _ _ _ _ hc6 hn6 hp6 hr6,
      combine_opt_sample_len _ _ _ _ hc7 hn7 hp7 hr7,
      combine_opt_sample_len _ _ _ _ hc8 hn8 hp8 hr8,
      combine_opt_sample_len _ _ _ _ hc9 hn9 hp9 hr9,
      combine_opt_sample_len _ _ _ _ hc10 hn10 hp10 hr10⟩

/-- C1 counterexample: the two headers pass the compatibility check (it does
not compare DAC channel counts), the second recording has no DAC matrix, yet
the combined recording still has one — with 1 sample against 2 timestamps —
contradicting "kinds absent in either input are absent in the result" and the
uniform sample-length consequence. -/
theorem C1_counterexample :
    verify_header_compatibility fileDac.header fileNoDac.header = .ok () ∧
    (fileNoDac.data.bind RhsData.board_dac_data) = none ∧
    ((combine_data fileDac fileNoDac).data.bind RhsData.board_dac_data)
      = some [[(0 : Rat)]] ∧
    ((combine_data fileDac fileNoDac).data.map fun d => d.timestamps.length)
      = some 2 := by
  refine ⟨?_, rfl, rfl, rfl⟩
  norm_num [verify_header_compatibility, fileDac, fileNoDac, headerDacOnly,
    headerNoDac, rat_abs]

/-- Witness for C1 at two concrete recordings. -/
theorem C1_witness :
    (combine_data fileDac fileNoDac).data
      = some (combine_rhs_data dataDac dataNoDac) ∧
    (combine_rhs_data dataDac dataNoDac).timestamps
      = dataDac.timestamps ++ dataNoDac.timestamps :=
  ⟨(C1_amended_combine fileDac fileNoDac dataDac dataNoDac rfl rfl).1,
   (C1_amended_combine fileDac fileNoDac dataDac dataNoDac rfl rfl).2.1⟩

theorem verify_header_compatibility_ok_iff (h1 h2 : RhsHeader) :
    verify_header_compatibility h1 h2 = .ok () ↔ headers_compatible h1 h2 := by
  unfold verify_header_compatibility headers_compatible
  split_ifs with hrate hamp hadc hdig hnames
  · exact iff_of_false (by simp) (fun h => absurd h.1 (not_le.mpr hrate))
  · exact iff_of_false (by simp) (fun h => absurd h.2.1 hamp)
  · exact iff_of_false (by simp) (fun h => absurd h.2.2.1 hadc)
  · exact iff_of_false (by simp) (fun h => absurd h.2.2.2.1 hdig)
  · refine iff_of_false (by simp) (fun h => ?_)
    obtain ⟨p, hp, hne⟩ := List.any_eq_true.mp hnames
    exact absurd (h.2.2.2.2 p hp) (bne_iff_ne.mp hne)
  · refine iff_of_true rfl ⟨le_of_not_lt hrate, not_ne_iff.mp hamp,
      not_ne_iff.mp hadc, not_ne_iff.mp hdig, fun p hp => ?_⟩
    by_contra hne
    exact hnames (List.any_eq_true.mpr ⟨p, hp, bne_iff_ne.mpr hne⟩)

/-- C6: combining two loaded files, both carrying data: the compatibility
check passes iff the headers agree on sample rate (within 0.01), amplifier /
ADC / digital-in channel counts and amplifier native names; on success the
combined recording has `N1 + N2` samples and a two-entry source-file list; on
any mismatch the whole combine fails with the check's descriptive error and no
combined result is produced. -/
theorem C6_two_file_combination (p1 p2 : String) (f1 f2 : RhsFile) (cd nd : RhsData)
    (h1p : f1.data_present = true) (h2p : f2.data_present = true)
    (h1 : f1.data = some cd) (h2 : f2.data = some nd) :
    (verify_header_compatibility f1.header f2.header = .ok () ↔
      headers_compatible f1.header f2.header) ∧
    (headers_compatible f1.header f2.header →
      ∃ r, load_and_combine_files [(p1, f1), (p2, f2)] = .ok r ∧
        r.num_samples = cd.timestamps.length + nd.timestamps.length ∧
        r.source_files = some [p1, p2]) ∧
    (∀ e, verify_header_compatibility f1.header f2.header = .error e →
      load_and_combine_files [(p1, f1), (p2, f2)] = .error e) := by
  refine ⟨verify_header_compatibility_ok_iff _ _, ?_, ?_⟩
  · intro hcompat
    have hok : verify_header_compatibility f1.header f2.header = .ok () :=
      (verify_header_compatibility_ok_iff _ _).mpr hcompat
    refine ⟨⟨f1.header, some (combine_rhs_data cd nd), f1.data_present,
      some [p1, p2]⟩, ?_, ?_, rfl⟩
    · unfold load_and_combine_files
      dsimp only
      simp only [List.isEmpty_cons, Bool.false_eq_true, if_false]
      unfold combine_files_loop
      dsimp only
      rw [hok]
      dsimp only
      rw [h1p, h2p]
      simp only [Bool.and_self, eq_self_iff_true, if_true]
      unfold combine_data
      dsimp only
      rw [h1, h2]
      unfold combine_files_loop
      rfl
    · simp [RhsFile.num_samples, combine_rhs_data]
  · intro e he
    unfold load_and_combine_files
    dsimp only
    simp only [List.isEmpty_cons, Bool.false_eq_true, if_false]
    unfold combine_files_loop
    dsimp only
    rw [he]

/-- Helper: the concrete header is compatible with itself. -/
theorem headerNoDac_compat : headers_compatible headerNoDac headerNoDac := by
  refine ⟨by norm_num [rat_abs], rfl, rfl, rfl, fun p hp => ?_⟩
  simp [headerNoDac] at hp

/-- Witness for C6 at two concrete compatible files. -/
theorem C6_witness :
    ∃ r, load_and_combine_files [("a.rhs", fileNoDac), ("b.rhs", fileNoDac)] = .ok r ∧
      r.num_samples = dataNoDac.timestamps.length + dataNoDac.timestamps.length ∧
      r.source_files = some ["a.rhs", "b.rhs"] :=
  (C6_two_file_combination "a.rhs" "b.rhs" fileNoDac fileNoDac dataNoDac dataNoDac
    rfl rfl rfl rfl).2.1 headerNoDac_compat

/-! ## C7 — notch filter -/

theorem notch_filter_rec_succ (a a0 a1 a2 b0 b1 b2 : ℝ) (x : ℕ → ℝ) (n : ℕ) :
    notch_filter_rec a a0 a1 a2 b0 b1 b2 x (n + 2) =
      (a * b0 * x (n + 2) + a * b1 * x (n + 1) + a * b2 * x n
        - a2 * notch_filter_rec a a0 a1 a2 b0 b1 b2 x n
        - a1 * notch_filter_rec a a0 a1 a2 b0 b1 b2 x (n + 1)) / a0 := by
  rfl

/-- C7: the notch filter runs iff a notch frequency was configured and the
format major version is below 3; the first two output samples copy the input;
and every later sample obeys
`y[i] = a·b0·x[i] + a·b1·x[i−1] + a·b2·x[i−2] − a2·y[i−2] − a1·y[i−1]`
with `d = exp(−π·bandwidth·Δt)` for the fixed 10 Hz bandwidth,
`b = (1+d²)·cos(2π·f_notch·Δt)`, `a1 = −b`, `a2 = d²`, `a = (1+d²)/2`,
`b0 = 1`, `b1 = −2·cos(2π·f_notch·Δt)`, `b2 = 1`. -/
theorem C7_notch_filter (header : RhsHeader) (data : List (ℕ → ℝ))
    (x : ℕ → ℝ) (f_sample f_notch : ℝ) (n : ℕ) :
    (header.notch_filter_frequency = none → apply_notch_filter header data = data) ∧
    (3 ≤ header.version.major → apply_notch_filter header data = data) ∧
    (∀ nf : Int, header.notch_filter_frequency = some nf → header.version.major < 3 →
      apply_notch_filter header data = data.map fun channel_data =>
        notch_filter channel_data ((header.sample_rate : Rat) : ℝ) ((nf : Int) : ℝ) 10) ∧
    notch_filter x f_sample f_notch 10 0 = x 0 ∧
    notch_filter x f_sample f_notch 10 1 = x 1 ∧
    (notch_filter x f_sample f_notch 10 (n + 2) =
      ((1 + Real.exp (-Real.pi * 10 * (1 / f_sample))
          * Real.exp (-Real.pi * 10 * (1 / f_sample))) / 2) * 1 * x (n + 2)
      + ((1 + Real.exp (-Real.pi * 10 * (1 / f_sample))
          * Real.exp (-Real.pi * 10 * (1 / f_sample))) / 2)
        * (-2 * Real.cos (2 * Real.pi * (f_notch * (1 / f_sample)))) * x (n + 1)
      + ((1 + Real.exp (-Real.pi * 10 * (1 / f_sample))
          * Real.exp (-Real.pi * 10 * (1 / f_sample))) / 2) * 1 * x n
      - (Real.exp (-Real.pi * 10 * (1 / f_sample))
          * Real.exp (-Real.pi * 10 * (1 / f_sample)))
        * notch_filter x f_sample f_notch 10 n
      - (-((1 + Real.exp (-Real.pi * 10 * (1 / f_sample))
            * Real.exp (-Real.pi * 10 * (1 / f_sample)))
          * Real.cos (2 * Real.pi * (f_notch * (1 / f_sample)))))
        * notch_filter x f_sample f_notch 10 (n + 1)) := by
  have hd : Real.exp (-2 * Real.pi * (((10 : ℤ) : ℝ) / 2) * (1 / f_sample))
      = Real.exp (-Real.pi * 10 * (1 / f_sample)) := by
    congr 1
    push_cast
    ring
  refine ⟨?_, ?_, ?_, rfl, rfl, ?_⟩
  · intro hnone
    unfold apply_notch_filter
    rw [hnone]
  · intro hver
    unfold apply_notch_filter
    cases header.notch_filter_frequency with
    | none => rfl
    | some nf =>
      dsimp only
      rw [if_pos hver]
  · intro nf hsome hver
    unfold apply_notch_filter
    rw [hsome]
    dsimp only
    rw [if_neg (by omega)]
  · simp only [notch_filter]
    rw [notch_filter_rec_succ, hd]
    ring

/-- Witness for C7 at a concrete header with a 60 Hz notch and version 2. -/
theorem C7_witness :
    apply_notch_filter headerW2 [] = List.map (fun channel_data =>
      notch_filter channel_data ((headerW2.sample_rate : Rat) : ℝ) ((60 : ℤ) : ℝ) 10) [] :=
  (C7_notch_filter headerW2 [] (fun _ => 0) 1 1 0).2.2.1 60 rfl (by decide)
